import Mathlib

/-!
Shallow embedding of the paragraph-segmentation and semantic-retrieval core of
the `sistema_conocimiento` repository, plus theorems settling the frozen claims.

Strings are modelled as `List Char` (Python `str` is a sequence of Unicode code
points, as is Lean's `List Char`).  Each definition is translated from the
Python source file named in its doc comment.  Cosine distance is a real-number
computation delegated to scipy in the source; here distances are rationals and
the distance function is a parameter of the retrieval pipeline, which is the
part the source implements.
-/

namespace SistemaConocimiento

/-- Python whitespace (the set matched by `str.isspace`, `str.strip` and the
regex class `\s` on `str` patterns). -/
def esEspacio (c : Char) : Bool :=
  c = ' ' || c = '\t' || c = '\n' || c = '\r' || c = '\u000B' || c = '\u000C' ||
  c = '\u001C' || c = '\u001D' || c = '\u001E' || c = '\u001F' || c = '\u0085' ||
  c = '\u00A0' || c = '\u1680' ||
  ('\u2000' ≤ c && c ≤ '\u200A') ||
  c = '\u2028' || c = '\u2029' || c = '\u202F' || c = '\u205F' || c = '\u3000'

/-- Python `str.lstrip()`. -/
def pyLStrip (l : List Char) : List Char := l.dropWhile esEspacio

/-- Python `str.rstrip()`. -/
def pyRStrip (l : List Char) : List Char := (l.reverse.dropWhile esEspacio).reverse

/-- Python `str.strip()`. -/
def pyStrip (l : List Char) : List Char := pyRStrip (pyLStrip l)

/-- First whitespace-separated token of a string: `linea.split()[0]`
(the empty list when the string has no token). -/
def primeraPalabra (l : List Char) : List Char :=
  (l.dropWhile esEspacio).takeWhile (fun c => !esEspacio c)

/-- ASCII decimal digit, the regex class `\d` restricted to ASCII as matched
by the patterns in `segmentation.py` (titles are ASCII-numbered). -/
def esDigito (c : Char) : Bool := '0' ≤ c && c ≤ '9'

/-- ASCII uppercase letter, the regex class `[A-Z]`. -/
def esMayusAscii (c : Char) : Bool := 'A' ≤ c && c ≤ 'Z'

/-- ASCII letter, the regex class `[A-Za-z]`. -/
def esLetraAscii (c : Char) : Bool := esMayusAscii c || ('a' ≤ c && c ≤ 'z')

/-- Character admitted by the regex class `[IVXLCDMivxlcdm]` of
`TITULO_ROMANO` in `src/segmentation.py`. -/
def esRomanoChar (c : Char) : Bool :=
  c = 'I' || c = 'V' || c = 'X' || c = 'L' || c = 'C' || c = 'D' || c = 'M' ||
  c = 'i' || c = 'v' || c = 'x' || c = 'l' || c = 'c' || c = 'd' || c = 'm'

/-- Character admitted by the class `[A-ZÁÉÍÓÚÜÑ\s]` of `TITULO_MAYUSCULAS`
in `src/segmentation.py`. -/
def esMayusClase (c : Char) : Bool :=
  esMayusAscii c || c = 'Á' || c = 'É' || c = 'Í' || c = 'Ó' || c = 'Ú' ||
  c = 'Ü' || c = 'Ñ' || esEspacio c

/-- Tail admitted by `[^:\n]*$` at the end of the title regexes: every
character other than an optional final newline must differ from `:` and
newline (`$` in a Python non-multiline pattern also matches just before a
final newline). -/
def colaSinDosPuntos (cs : List Char) : Bool :=
  cs.all (fun c => !(c = ':' || c = '\n')) ||
  (decide (cs ≠ []) && cs.dropLast.all (fun c => !(c = ':' || c = '\n')) &&
    cs.getLast? == some '\n')

/-- Consume the dotted continuation `(\.\d+)*` of `TITULO_NUMERICO` greedily:
the greedy parse is equivalent to the backtracking one because every
alternative continuation (`\s+`) starts with a character that can end
neither a digit run nor a dot group.  `fuel` only bounds the recursion
(each step consumes at least two characters), so `fuel = cs.length` is
always enough. -/
def consumePuntoDigitosF : Nat → List Char → List Char
  | _, [] => []
  | 0, cs => cs
  | fuel + 1, c :: resto =>
    if c = '.' then
      let ds := resto.takeWhile esDigito
      if ds.isEmpty then c :: resto else consumePuntoDigitosF fuel (resto.drop ds.length)
    else c :: resto

/-- Entry point of the dotted-continuation scan with sufficient fuel. -/
def consumePuntoDigitos (cs : List Char) : List Char :=
  consumePuntoDigitosF cs.length cs

/-- Matcher of `TITULO_NUMERICO = ^\s*(\d+(\.\d+)*)\s+([A-Z][^:\n]*)$`
(`src/segmentation.py`). -/
def tituloNumericoMatch (l : List Char) : Bool :=
  let cs := l.dropWhile esEspacio
  let ds := cs.takeWhile esDigito
  if ds.isEmpty then false
  else
    let resto := consumePuntoDigitos (cs.drop ds.length)
    let sp := resto.takeWhile esEspacio
    if sp.isEmpty then false
    else
      match resto.drop sp.length with
      | c :: cola => esMayusAscii c && colaSinDosPuntos cola
      | [] => false

/-- Matcher of `TITULO_LETRA = ^\s*([A-Za-z])\s+([A-Z][^:\n]*)$`
(`src/segmentation.py`). -/
def tituloLetraMatch (l : List Char) : Bool :=
  match l.dropWhile esEspacio with
  | c :: resto =>
    if esLetraAscii c then
      let sp := resto.takeWhile esEspacio
      if sp.isEmpty then false
      else
        match resto.drop sp.length with
        | d :: cola => esMayusAscii d && colaSinDosPuntos cola
        | [] => false
    else false
  | [] => false

/-- Matcher of `TITULO_ROMANO = ^\s*([IVXLCDMivxlcdm]+)\s+([A-Z][^:\n]*)$`
(`src/segmentation.py`), returning the captured group 1 on success.  The
greedy parse of the character-class run is equivalent to the backtracking
one because the follow-set (`\s+`) is disjoint from the class. -/
def tituloRomanoGroup (l : List Char) : Option (List Char) :=
  let cs := l.dropWhile esEspacio
  let run := cs.takeWhile esRomanoChar
  if run.isEmpty then none
  else
    let resto := cs.drop run.length
    let sp := resto.takeWhile esEspacio
    if sp.isEmpty then none
    else
      match resto.drop sp.length with
      | c :: cola => if esMayusAscii c && colaSinDosPuntos cola then some run else none
      | [] => none

/-- Matcher of `TITULO_MAYUSCULAS = ^[A-ZÁÉÍÓÚÜÑ\s]+\n*$`
(`src/segmentation.py`): the class already contains every whitespace
character, so the pattern accepts exactly the non-empty strings drawn from
the class. -/
def tituloMayusculasMatch (l : List Char) : Bool :=
  decide (l ≠ []) && l.all esMayusClase

/-- Thousands part `M{0,4}` of the Roman-numeral grammar. -/
def romanosMiles : List (List Char) :=
  [[], ['M'], ['M','M'], ['M','M','M'], ['M','M','M','M']]

/-- Hundreds part `(CM|CD|D?C{0,3})` of the Roman-numeral grammar. -/
def romanosCientos : List (List Char) :=
  [['C','M'], ['C','D'], [], ['C'], ['C','C'], ['C','C','C'],
   ['D'], ['D','C'], ['D','C','C'], ['D','C','C','C']]

/-- Tens part `(XC|XL|L?X{0,3})` of the Roman-numeral grammar. -/
def romanosDecenas : List (List Char) :=
  [['X','C'], ['X','L'], [], ['X'], ['X','X'], ['X','X','X'],
   ['L'], ['L','X'], ['L','X','X'], ['L','X','X','X']]

/-- Units part `(IX|IV|V?I{0,3})` of the Roman-numeral grammar. -/
def romanosUnidades : List (List Char) :=
  [['I','X'], ['I','V'], [], ['I'], ['I','I'], ['I','I','I'],
   ['V'], ['V','I'], ['V','I','I'], ['V','I','I','I']]

/-- Fullmatch of `ROMAN_VALID = ^M{0,4}(CM|CD|D?C{0,3})(XC|XL|L?X{0,3})(IX|IV|V?I{0,3})$`
with `re.IGNORECASE` (`src/segmentation.py`): a regex of concatenated finite
alternations accepts exactly the concatenations of its parts. -/
def romanValidFull (l : List Char) : Bool :=
  let u := l.map Char.toUpper
  romanosMiles.any fun m => romanosCientos.any fun h =>
    romanosDecenas.any fun t => romanosUnidades.any fun n =>
      u == m ++ h ++ t ++ n

/-- Translation of `es_titulo` (`src/segmentation.py`, lines 129-158): strip,
reject below length 5, then try the numeric, single-letter, validated-Roman
and all-caps patterns in order. -/
def es_titulo (linea : List Char) : Bool :=
  let l := pyStrip linea
  if l.length < 5 then false
  else
    tituloNumericoMatch l ||
    tituloLetraMatch l ||
    (match tituloRomanoGroup l with
     | some g => romanValidFull g
     | none => false) ||
    tituloMayusculasMatch l

/-- Line-boundary characters recognised by Python `str.splitlines`. -/
def esLimiteLinea (c : Char) : Bool :=
  c = '\n' || c = '\r' || c = '\u000b' || c = '\u000c' || c = '\u001c' ||
  c = '\u001d' || c = '\u001e' || c = '\u0085' || c = ' ' || c = ' '

/-- Worker for `pySplitLines`; `cur` holds the current line reversed. -/
def pySplitLinesAux : List Char → List Char → List (List Char)
  | cur, [] => if cur.isEmpty then [] else [cur.reverse]
  | cur, '\r' :: '\n' :: resto => cur.reverse :: pySplitLinesAux [] resto
  | cur, c :: resto =>
    if esLimiteLinea c then cur.reverse :: pySplitLinesAux [] resto
    else pySplitLinesAux (c :: cur) resto

/-- Python `texto.splitlines()`. -/
def pySplitLines (l : List Char) : List (List Char) := pySplitLinesAux [] l

/-- Python `"sep".join`-style concatenation with a single-character separator. -/
def unirCon (sep : Char) : List (List Char) → List Char
  | [] => []
  | [l] => l
  | l :: resto => l ++ sep :: unirCon sep resto

/-- Worker for `pySplitChar`. -/
def pySplitCharAux (c : Char) : List Char → List Char → List (List Char)
  | cur, [] => [cur.reverse]
  | cur, x :: resto =>
    if x = c then cur.reverse :: pySplitCharAux c [] resto
    else pySplitCharAux c (x :: cur) resto

/-- Python `texto.split(c)` for a one-character separator (empty pieces kept). -/
def pySplitChar (c : Char) (l : List Char) : List (List Char) := pySplitCharAux c [] l

/-- Loop body of `segmentar_por_titulo` (`src/segmentation.py`, lines 160-182):
`buffer` accumulates the lines of the current segment; a title line closes a
non-empty buffer (emitting its lines joined by newlines and stripped) and
always starts the next buffer. -/
def segmentarPorTituloAux : List (List Char) → List (List Char) → List (List Char)
  | buffer, [] => if buffer.isEmpty then [] else [pyStrip (unirCon '\n' buffer)]
  | buffer, linea :: resto =>
    if es_titulo linea then
      if buffer.isEmpty then segmentarPorTituloAux [linea] resto
      else pyStrip (unirCon '\n' buffer) :: segmentarPorTituloAux [linea] resto
    else segmentarPorTituloAux (buffer ++ [linea]) resto

/-- Translation of `segmentar_por_titulo` (`src/segmentation.py`): split into
lines, then group them at detected titles. -/
def segmentar_por_titulo (texto : List Char) : List (List Char) :=
  segmentarPorTituloAux [] (pySplitLines texto)

/-- Continuations `(\.\d+)*` available to the backtracking engine after the
digit run: one entry per number of complete dot-digit groups retained (a
group that matched fewer than its whole digit run leaves a digit in front
of `[\.\)]?\s+`, which can never continue, so only complete groups occur in
an accepting parse).  `fuel` only bounds the recursion; `cs.length` is
always enough. -/
def gruposPunteadosF : Nat → List Char → List (List Char)
  | _, [] => [[]]
  | 0, _ => [[]]
  | fuel + 1, c :: r =>
    if c = '.' then
      let ds := r.takeWhile esDigito
      if ds.isEmpty then [[]]
      else [] :: (gruposPunteadosF fuel (r.drop ds.length)).map (fun g => '.' :: (ds ++ g))
    else [[]]

/-- Entry point of the dot-group enumeration with sufficient fuel. -/
def gruposPunteados (cs : List Char) : List (List Char) :=
  gruposPunteadosF cs.length cs

/-- Index prefixes of the title pattern of the documentation variant,
`^(\d+(\.\d+)*|[A-Za-z]|[IVXLCDM]+)[\.\)]?\s+[A-Z]`
(`documentation/segmentation_txt_html_v4.py`, line 115), that the
backtracking engine can try: the full digit run with each possible number
of dot groups (a partial digit run leaves a digit in front of the follow
pattern, which always fails), a single letter, or each non-empty prefix of
the Roman-class run. -/
def indicesCandidatosDoc (cs : List Char) : List (List Char) :=
  let ds := cs.takeWhile esDigito
  let numerico := if ds.isEmpty then []
    else (gruposPunteados (cs.drop ds.length)).map (fun g => ds ++ g)
  let letra := match cs with
    | c :: _ => if esLetraAscii c then [[c]] else []
    | [] => []
  let run := cs.takeWhile (fun c => c = 'I' || c = 'V' || c = 'X' || c = 'L' || c = 'C' || c = 'D' || c = 'M')
  let romanos := (List.range run.length).map (fun k => run.take (k + 1))
  numerico ++ letra ++ romanos

/-- Whether a prefix `idx` (one resolved index alternative) continues into
`[\.\)]?\s+[A-Z]` in the remaining input. -/
def continuaTituloDoc (resto : List Char) : Bool :=
  let conPunto := match resto with
    | c :: r => if c = '.' || c = ')' then [r] else []
    | [] => []
  (resto :: conPunto).any fun r =>
    let sp := r.takeWhile esEspacio
    if sp.isEmpty then false
    else match r.drop sp.length with
      | c :: _ => esMayusAscii c
      | [] => false

/-- Acceptance of the documentation title pattern at the start of `cs`. -/
def esLineaTituloDoc (cs : List Char) : Bool :=
  (indicesCandidatosDoc cs).any fun idx => continuaTituloDoc (cs.drop idx.length)

/-- Fullmatch of `^(?=[MDCLXVI])M{0,4}(CM|CD|D?C{0,3})(XC|XL|L?X{0,3})(IX|IV|V?I{0,3})$`
applied to `cadena.upper()` (`es_numero_romano_valido`,
`documentation/segmentation_txt_html_v4.py`, lines 103-108).  The lookahead
only adds non-emptiness. -/
def es_numero_romano_valido (cadena : List Char) : Bool :=
  decide (cadena ≠ []) && romanValidFull cadena

/-- Whether `primer_palabra` is a run of uppercase Roman-class characters,
`re.match(r"^[IVXLCDM]+$", primer_palabra)`. -/
def esPalabraRomana (p : List Char) : Bool :=
  decide (p ≠ []) && p.all (fun c => c = 'I' || c = 'V' || c = 'X' || c = 'L' || c = 'C' || c = 'D' || c = 'M')

/-- The full title decision taken inside the loop of the documentation
`segmentar_por_titulo` (lines 113-125): the regex must accept the stripped
line, the first token must not be the literal "ISO" (case-insensitively),
and a first token that is a Roman-class word must be a valid numeral. -/
def esTituloDocConGuardas (linea : List Char) : Bool :=
  esLineaTituloDoc (pyStrip linea) &&
  !((primeraPalabra linea).map Char.toUpper == ('I' :: 'S' :: 'O' :: [])) &&
  !(esPalabraRomana (primeraPalabra linea) && !es_numero_romano_valido (primeraPalabra linea))

/-- One segment of the documentation `segmentar_por_titulo`: an optional
title line and the content lines collected under it. -/
structure SegmentoDoc where
  titulo : Option (List Char)
  contenido : List (List Char)
deriving DecidableEq, Repr

/-- Loop of the documentation `segmentar_por_titulo` (lines 110-134):
a detected title closes the current segment if that segment already has a
title (a title-less leading segment is NOT appended), and lines failing the
guards are appended to the current content. -/
def segmentarPorTituloDocAux : SegmentoDoc → List (List Char) → List SegmentoDoc
  | actual, [] => if actual.titulo.isSome then [actual] else []
  | actual, linea :: resto =>
    if esTituloDocConGuardas linea then
      match actual.titulo with
      | some _ => actual :: segmentarPorTituloDocAux ⟨some linea, []⟩ resto
      | none => segmentarPorTituloDocAux ⟨some linea, []⟩ resto
    else segmentarPorTituloDocAux ⟨actual.titulo, actual.contenido ++ [linea]⟩ resto

/-- Worker of `re.sub(r'\n+', '\n', texto)`: the flag records whether the
previous character was a newline already collapsed into the output. -/
def normalizaSaltosAux : Bool → List Char → List Char
  | _, [] => []
  | enSalto, c :: resto =>
    if c = '\n' then
      if enSalto then normalizaSaltosAux true resto
      else '\n' :: normalizaSaltosAux true resto
    else c :: normalizaSaltosAux false resto

/-- Collapse of `re.sub(r'\n+', '\n', texto)`. -/
def normalizaSaltos (l : List Char) : List Char := normalizaSaltosAux false l

/-- Translation of the documentation `segmentar_por_titulo`
(`documentation/segmentation_txt_html_v4.py`, lines 92-141): normalise
newline runs, keep the stripped non-empty lines, run the grouping loop from
a title-less empty segment, and render each kept segment as
`titulo ++ "\n" ++ contenido joined by spaces, stripped`. -/
def segmentarPorTituloDoc (texto : List Char) : List (List Char) :=
  let lineas := ((pySplitChar '\n' (normalizaSaltos texto)).map pyStrip).filter
    (fun l => !l.isEmpty)
  let segmentos := segmentarPorTituloDocAux ⟨none, []⟩ lineas
  segmentos.map fun seg =>
    (seg.titulo.getD []) ++ '\n' :: pyStrip (unirCon ' ' seg.contenido)

/-- Index (0-based) of the last occurrence of `c` in `l`. -/
def ultimoIndiceDe (c : Char) : List Char → Option Nat
  | [] => none
  | x :: resto =>
    match ultimoIndiceDe c resto with
    | some i => some (i + 1)
    | none => if x = c then some 0 else none

/-- Match length of the branch `\n\s*\n` at the start of `cs` (0 when it
does not match): the greedy-with-backtracking `\s*` ends at the last
newline inside the maximal whitespace run, which must not be the leading
newline itself. -/
def sepDobleSalto (cs : List Char) : Nat :=
  match cs with
  | c :: _ =>
    if c = '\n' then
      match ultimoIndiceDe '\n' (cs.takeWhile esEspacio) with
      | some j => if 1 ≤ j then j + 1 else 0
      | none => 0
    else 0
  | [] => 0

/-- Lookahead of the second branch: `(?=\s*[A-Z])` when `lax` is true
(`src/segmentation.py`) and `(?=[A-Z])` when false
(`segmentation_txt_html_v4.py` variants). -/
def miraMayuscula (lax : Bool) (resto : List Char) : Bool :=
  let r := if lax then resto.dropWhile esEspacio else resto
  match r with
  | c :: _ => esMayusAscii c
  | [] => false

/-- Match length of `(?<=\.)\n(?=...)` at the start of `cs` given the
character `prev` preceding the current position (0 when it does not
match). -/
def sepPuntoSalto (lax : Bool) (prev : Option Char) (cs : List Char) : Nat :=
  match cs with
  | c :: resto =>
    if c = '\n' && prev == some '.' && miraMayuscula lax resto then 1 else 0
  | [] => 0

/-- Match length of the split pattern
`\n\s*\n|(?<=\.)\n(?=\s*[A-Z])` (lax) or `\n\s*\n|(?<=\.)\n(?=[A-Z])`
(strict) at the current position; the first branch is tried first, as the
regex engine does. -/
def sepSaltos (lax : Bool) (prev : Option Char) (cs : List Char) : Nat :=
  let a := sepDobleSalto cs
  if a ≠ 0 then a else sepPuntoSalto lax prev cs

/-- Worker of the `re.split` scan.  `fuel` only bounds the recursion; one
character is consumed per step at minimum, so `fuel = cs.length` is always
enough and the out-of-fuel branch (which keeps the remaining characters as
one fragment so that no branch loses content) is never reached from
`pySplitSaltos`. -/
def splitSaltosAux (lax : Bool) : Nat → Option Char → List Char → List Char → List (List Char)
  | _, _, cur, [] => [cur.reverse]
  | 0, _, cur, cs => [cur.reverse ++ cs]
  | fuel + 1, prev, cur, c :: resto =>
    let m := sepSaltos lax prev (c :: resto)
    if m = 0 then splitSaltosAux lax fuel (some c) (c :: cur) resto
    else cur.reverse :: splitSaltosAux lax fuel (some '\n') [] ((c :: resto).drop m)

/-- `re.split` over the paragraph-break pattern. -/
def pySplitSaltos (lax : Bool) (texto : List Char) : List (List Char) :=
  splitSaltosAux lax texto.length none [] texto

/-- Translation of `segmentar_por_saltos` (`src/segmentation.py`, lines
114-126): split on paragraph breaks, keep the stripped pieces that remain
non-empty. -/
def segmentar_por_saltos (texto : List Char) : List (List Char) :=
  ((pySplitSaltos true texto).map pyStrip).filter (fun p => !p.isEmpty)

/-- Translation of `segmentar_por_saltos`
(`src/segmentation_txt_html_v4.py`, lines 53-57): normalise newline runs,
split with the strict lookahead, keep stripped pieces longer than 30. -/
def segmentarPorSaltosV4 (texto : List Char) : List (List Char) :=
  ((pySplitSaltos false (normalizaSaltos texto)).map pyStrip).filter
    (fun p => 30 < p.length)

/-- Accumulation loop of `segmentar_por_longitud`
(`src/segmentation_txt_html_v4.py`, lines 64-75): an empty buffer takes the
fragment; a buffer that would stay below the threshold absorbs the fragment
after a single space; otherwise the buffer is emitted (stripped) and the
triggering fragment starts the next buffer.  The final non-empty buffer is
flushed. -/
def acumulaFragmentos (umbral : Nat) : List Char → List (List Char) → List (List Char)
  | buffer, [] => if buffer.isEmpty then [] else [pyStrip buffer]
  | buffer, fragmento :: resto =>
    if buffer.isEmpty then acumulaFragmentos umbral fragmento resto
    else if buffer.length + fragmento.length < umbral then
      acumulaFragmentos umbral (buffer ++ ' ' :: fragmento) resto
    else pyStrip buffer :: acumulaFragmentos umbral fragmento resto

/-- Translation of `segmentar_por_longitud`
(`src/segmentation_txt_html_v4.py`, lines 59-78, default threshold 400):
split into raw fragments, keep stripped non-empty ones, accumulate to the
threshold, and reject resulting paragraphs of length up to 100. -/
def segmentar_por_longitud (texto : List Char) (umbral_longitud : Nat) : List (List Char) :=
  let fragmentos := ((pySplitSaltos false (normalizaSaltos texto)).map pyStrip).filter
    (fun f => !f.isEmpty)
  (acumulaFragmentos umbral_longitud [] fragmentos).filter (fun p => 100 < p.length)

/-- One paragraph record of an embeddings JSON file
(`src/search_embeddings.py`); `none` models a missing key or JSON null, and
the embedding payload type is a parameter (the source stores float arrays
whose only use is as argument to the cosine-distance call). -/
structure Seccion (E : Type) where
  id_parrafo : Int
  texto : List Char
  metodo_extraccion : Option (List Char)
  tipo_extraccion : Option (List Char)
  estrategia_segmentacion : Option (List Char)
  idioma : Option (List Char)
  modelo_embedding : Option (List Char)
  embedding : Option E
deriving DecidableEq

/-- File-level filters of `buscar_documentos_similares`
(`src/search_embeddings.py`). -/
structure FiltrosFichero where
  metodo_extraccion : Option (List Char)
  tipo_extraccion : Option (List Char)
  estrategia_segmentacion : Option (List Char)
deriving DecidableEq

/-- Paragraph-level filters of `buscar_documentos_similares`. -/
structure FiltrosParrafo where
  estrategia_segmentacion : Option (List Char)
  idioma : Option (List Char)
  modelo_embedding : Option (List Char)
deriving DecidableEq

/-- Python truthiness of `dict.get(clave)` for a string value: false for a
missing key, a JSON null, or the empty string. -/
def valorActivo : Option (List Char) → Bool
  | none => false
  | some s => !s.isEmpty

/-- Python `cadena.split("/")[-1]`: the final slash-separated component. -/
def ultimoComponente (s : List Char) : List Char :=
  (pySplitChar '/' s).getLastD []

/-- File-level discard test of `buscar_documentos_similares`
(`src/search_embeddings.py`, lines 65-81): each supplied filter is compared
with the corresponding metadata of the FIRST paragraph of the file only,
and every test is vacuous when the paragraph list is empty. -/
def ficheroDescartado {E : Type} (ff : Option FiltrosFichero) (parrafos : List (Seccion E)) : Bool :=
  match ff with
  | none => false
  | some f =>
    match parrafos with
    | [] => false
    | p :: _ =>
      (valorActivo f.metodo_extraccion && !(p.metodo_extraccion == f.metodo_extraccion)) ||
      (valorActivo f.tipo_extraccion && !(p.tipo_extraccion == f.tipo_extraccion)) ||
      (valorActivo f.estrategia_segmentacion &&
        !(p.estrategia_segmentacion == f.estrategia_segmentacion))

/-- Paragraph-level filter of `buscar_documentos_similares` (lines 84-105).
`Except` models the `AttributeError` the source raises when the model
filter is active and the paragraph has no `modelo_embedding` value
(`None.split("/")`); the model comparison only looks at the final `/`
component of each identifier. -/
def filtraParrafo {E : Type} (fp : Option FiltrosParrafo) (s : Seccion E) : Except Unit Bool :=
  match fp with
  | none => .ok true
  | some f =>
    if valorActivo f.estrategia_segmentacion &&
        !(s.estrategia_segmentacion == f.estrategia_segmentacion) then .ok false
    else if valorActivo f.idioma && !(s.idioma == f.idioma) then .ok false
    else
      match f.modelo_embedding with
      | some fm =>
        if fm.isEmpty then .ok true
        else
          match s.modelo_embedding with
          | none => .error ()
          | some sm => .ok (ultimoComponente sm == ultimoComponente fm)
      | none => .ok true

/-- Paragraph loop of `buscar_documentos_similares` (lines 84-127) over the
paragraphs of one file: paragraphs failing a filter or lacking an embedding
are skipped, the cosine distance of the rest is computed, and those within
the threshold are collected in retrieval order as
`(archivo, distancia, seccion)`. -/
def consideraSecciones {E : Type} (dist : E → E → ℚ) (q : E) (fp : Option FiltrosParrafo)
    (umbral : ℚ) (archivo : List Char) : List (Seccion E) → Except Unit (List (List Char × ℚ × Seccion E))
  | [] => .ok []
  | s :: resto =>
    match filtraParrafo fp s with
    | .error e => .error e
    | .ok false => consideraSecciones dist q fp umbral archivo resto
    | .ok true =>
      match s.embedding with
      | none => consideraSecciones dist q fp umbral archivo resto
      | some e =>
        match consideraSecciones dist q fp umbral archivo resto with
        | .error err => .error err
        | .ok cola =>
          if dist q e ≤ umbral then .ok ((archivo, dist q e, s) :: cola) else .ok cola

/-- File loop of `buscar_documentos_similares` (lines 58-127): each file is
either discarded whole by the file-level filters or contributes its kept
paragraphs in order. -/
def consideraArchivos {E : Type} (dist : E → E → ℚ) (q : E) (ff : Option FiltrosFichero)
    (fp : Option FiltrosParrafo) (umbral : ℚ) :
    List (List Char × List (Seccion E)) → Except Unit (List (List Char × ℚ × Seccion E))
  | [] => .ok []
  | a :: resto =>
    if ficheroDescartado ff a.2 then consideraArchivos dist q ff fp umbral resto
    else
      match consideraSecciones dist q fp umbral a.1 a.2 with
      | .error e => .error e
      | .ok l =>
        match consideraArchivos dist q ff fp umbral resto with
        | .error e => .error e
        | .ok l2 => .ok (l ++ l2)

/-- Comparison key of `sorted(parrafos_considerados, key=lambda x: x[1])`. -/
def leDistancia {E : Type} (a b : List Char × ℚ × Seccion E) : Bool := a.2.1 ≤ b.2.1

/-- `UMBRAL_BASE` (`src/search_embeddings.py`, line 25). -/
def UMBRAL_BASE : ℚ := 30 / 100

/-- `NUM_PARRAFOS_A_CONSIDERAR` (`src/search_embeddings.py`, line 29). -/
def NUM_PARRAFOS_A_CONSIDERAR : Nat := 5

/-- Translation of `buscar_documentos_similares`
(`src/search_embeddings.py`, lines 47-138): collect the candidates that
pass the filters and the distance threshold, sort them by distance with
Python's stable sort, and keep the first `num_parrafos`.  The empty-result
branch of the source returns the same value `[]`.  The folder contents,
the embedding of the question and the cosine distance are the inputs of
the pipeline; threshold and cutoff, module constants in the source, are
parameters here instantiated by `UMBRAL_BASE` and
`NUM_PARRAFOS_A_CONSIDERAR`. -/
def buscar_documentos_similares {E : Type} (dist : E → E → ℚ) (q : E)
    (archivos : List (List Char × List (Seccion E)))
    (ff : Option FiltrosFichero) (fp : Option FiltrosParrafo)
    (umbral : ℚ) (num_parrafos : Nat) : Except Unit (List (List Char × ℚ × Seccion E)) :=
  match consideraArchivos dist q ff fp umbral archivos with
  | .error e => .error e
  | .ok c => .ok ((c.mergeSort leDistancia).take num_parrafos)

/-- Reference form of the candidate collection: files surviving the
file-level test contribute exactly their paragraphs that pass the
paragraph filter, have an embedding, and fall within the threshold. -/
def candidatosRef {E : Type} (dist : E → E → ℚ) (q : E) (ff : Option FiltrosFichero)
    (fp : Option FiltrosParrafo) (umbral : ℚ)
    (archivos : List (List Char × List (Seccion E))) : List (List Char × ℚ × Seccion E) :=
  (archivos.filter (fun a => !ficheroDescartado ff a.2)).flatMap fun a =>
    a.2.filterMap fun s =>
      match filtraParrafo fp s with
      | .ok true =>
        match s.embedding with
        | some e => if dist q e ≤ umbral then some (a.1, dist q e, s) else none
        | none => none
      | _ => none

/-- Translation of `generar_respuesta_con_ollama`
(`src/search_embeddings.py`, lines 140-177).  The external `ollama.chat`
call is the parameter `chat`; the set-based deduplication of the reference
block is modelled as first-occurrence deduplication (the source iterates a
Python `set`, whose order is an implementation detail no claim relies
on). -/
def generar_respuesta_con_ollama {E : Type} (chat : List Char → List Char)
    (formatea : ℚ → List Char)
    (parrafos_considerados : List (List Char × ℚ × Seccion E))
    (texto_pregunta : List Char) : List Char :=
  if parrafos_considerados.isEmpty then
    ("No se encontró una respuesta clara en los documentos.").data
  else
    let encabezado := ("A continuación, se presentan extractos de documentos relevantes:\n\n").data
    let cuerpo := parrafos_considerados.flatMap fun x =>
      ("- [").data ++ (toString x.2.2.id_parrafo).data ++ ("] ").data ++ x.2.2.texto ++ ("\n\n").data
    let referencias := (parrafos_considerados.map fun x =>
      x.1 ++ (" (distancia: ").data ++ formatea x.2.1 ++ (")\n").data ++
      ("Párrafo [").data ++ (toString x.2.2.id_parrafo).data ++ ("]: ").data ++ x.2.2.texto).dedup
    let contexto := encabezado ++ cuerpo ++ ("\nPregunta: ").data ++ texto_pregunta ++
      ("\n").data ++ ("Por favor, genera una respuesta concisa basada en la información proporcionada.").data
    chat contexto ++ ("\n\n📌 Ref. utilizadas:\n").data ++ unirConLista ("\n\n").data referencias
where
  unirConLista (sep : List Char) : List (List Char) → List Char
    | [] => []
    | [x] => x
    | x :: resto => x ++ sep ++ unirConLista sep resto

/-- One row of the `Ficheros` table (`src/db_utils.py`). -/
structure FicheroRow where
  fid : Int
  nombreOriginal : List Char
deriving DecidableEq

/-- One row of the `Parrafos` table (`src/db_utils.py`): nullable columns
are `Option`. -/
structure ParrafoRow where
  rid : Int
  id_fichero : Int
  id_parrafo : Int
  texto : List Char
  longitud : Int
  idioma : Option (List Char)
  titulos : List Char
  estrategia_segmentacion : Option (List Char)
  metodo_extraccion : Option (List Char)
  tipo_extraccion : Option (List Char)
  modelo_embedding : Option (List Char)
  embedding : Option (List Char)
deriving DecidableEq

/-- Python truthiness of an optional integer argument (`if id_fichero:`). -/
def valorActivoInt : Option Int → Bool
  | none => false
  | some n => n ≠ 0

/-- WHERE clause of `obtener_parrafos_para_consulta` (`src/db_utils.py`,
lines 256-280) for a join pair: the hardcoded `F.Id in (60,61)` restriction
plus one SQL equality per supplied (truthy) parameter; a NULL column never
satisfies an SQL equality. -/
def cumpleConsulta (metodo_extraccion tipo_extraccion estrategia_segmentacion
    idioma modelo_embedding : Option (List Char)) (id_fichero : Option Int)
    (f : FicheroRow) (p : ParrafoRow) : Bool :=
  p.id_fichero == f.fid &&
  (f.fid == 60 || f.fid == 61) &&
  (!valorActivo modelo_embedding || p.modelo_embedding == modelo_embedding) &&
  (!valorActivo idioma || p.idioma == idioma) &&
  (!valorActivo estrategia_segmentacion || p.estrategia_segmentacion == estrategia_segmentacion) &&
  (!valorActivo tipo_extraccion || p.tipo_extraccion == tipo_extraccion) &&
  (!valorActivo metodo_extraccion || p.metodo_extraccion == metodo_extraccion) &&
  (!valorActivoInt id_fichero || some p.id_fichero == id_fichero)

/-- Translation of `obtener_parrafos_para_consulta` (`src/db_utils.py`,
lines 239-296): join `Parrafos` with `Ficheros`, apply the WHERE clause,
and project `(texto, embedding, nombreOriginal, id_parrafo)`.  The language
parameter defaults to `"es"` at every call that omits it. -/
def obtener_parrafos_para_consulta (ficheros : List FicheroRow) (parrafos : List ParrafoRow)
    (metodo_extraccion tipo_extraccion estrategia_segmentacion idioma
      modelo_embedding : Option (List Char)) (id_fichero : Option Int) :
    List (List Char × Option (List Char) × List Char × Int) :=
  parrafos.flatMap fun p =>
    (ficheros.filter (cumpleConsulta metodo_extraccion tipo_extraccion
      estrategia_segmentacion idioma modelo_embedding id_fichero · p)).map fun f =>
      (p.texto, p.embedding, f.nombreOriginal, p.id_parrafo)

/-- The default language argument of `obtener_parrafos_para_consulta`. -/
def idiomaPorDefecto : Option (List Char) := some ("es").data

/-- A store operation on the `Parrafos` table, as issued by the two writers
of the embedding life cycle: `insertar_parrafo_segmentado`
(`src/db_utils.py`, lines 155-190), which the row id the engine assigns
made explicit, and `actualizar_embedding_parrafo` (lines 215-237), whose
two payloads are the JSON-serialised vector and the model name that
`procesar_parrafos_db` (`src/embeddings.py`) always passes as strings. -/
inductive OpParrafo where
  | insertar (rid id_fichero id_parrafo : Int) (texto : List Char) (longitud : Int)
      (idioma : Option (List Char)) (titulos : List Char)
      (estrategia metodo tipo : Option (List Char))
  | actualizar (rid : Int) (embedding : List Char) (modelo : List Char)

/-- Effect of one operation: `INSERT ... VALUES (..., NULL, NULL)` appends a
row whose `modelo_embedding` and `embedding` are both NULL;
`UPDATE Parrafos SET embedding = ?, modelo_embedding = ? WHERE id = ?` sets
both columns of the addressed rows in the single statement. -/
def aplicaOp (db : List ParrafoRow) : OpParrafo → List ParrafoRow
  | .insertar rid idf idp texto lon idio tit est met tip =>
    db ++ [⟨rid, idf, idp, texto, lon, idio, tit, est, met, tip, none, none⟩]
  | .actualizar rid emb mod =>
    db.map fun p =>
      if p.rid == rid then { p with embedding := some emb, modelo_embedding := some mod } else p

/-- The both-null-or-both-set invariant on embedding columns. -/
def invariEmbedding (db : List ParrafoRow) : Prop :=
  ∀ p ∈ db, p.modelo_embedding.isSome = p.embedding.isSome

/-- Distance oracle for concrete runs: the stored payload of each candidate
is directly its distance to the query (any `dist` is admissible, the
pipeline treats it as opaque). -/
def distEval : ℚ → ℚ → ℚ := fun _ e => e

/-- A paragraph record with empty metadata, base for concrete runs. -/
def seccionBase : Seccion ℚ :=
  ⟨0, [], none, none, none, none, none, none⟩

/-- Candidate "A" of the end-to-end ranking scenario: distance 0.10. -/
def seccionA : Seccion ℚ :=
  { seccionBase with id_parrafo := 1, texto := ("A").data, embedding := some (1 / 10) }

/-- Candidate "B" of the end-to-end ranking scenario: distance 0.50. -/
def seccionB : Seccion ℚ :=
  { seccionBase with id_parrafo := 2, texto := ("B").data, embedding := some (1 / 2) }

/-- Candidate "C" of the end-to-end ranking scenario: distance 0.20. -/
def seccionC : Seccion ℚ :=
  { seccionBase with id_parrafo := 3, texto := ("C").data, embedding := some (1 / 5) }

/-- The folder of the end-to-end ranking scenario. -/
def carpetaEscenario : List (List Char × List (Seccion ℚ)) :=
  [(("f.json").data, [seccionA, seccionB, seccionC])]

/-- Candidate whose stored model identifier differs from the requested one
in everything but the final path component. -/
def seccionOtroModelo : Seccion ℚ :=
  { seccionBase with id_parrafo := 7, modelo_embedding := some (("org-b/model").data), embedding := some (1 / 10) }

/-- Paragraph filter requesting the model "org-a/model". -/
def filtroModeloA : Option FiltrosParrafo :=
  some ⟨none, none, some ("org-a/model").data⟩

/-- First paragraph of the mixed-metadata file: extraction method "M1". -/
def seccionMetodoM1 : Seccion ℚ :=
  { seccionBase with id_parrafo := 1, metodo_extraccion := some (("M1").data), embedding := some (1 / 10) }

/-- Second paragraph of the mixed-metadata file: extraction method "M2". -/
def seccionMetodoM2 : Seccion ℚ :=
  { seccionBase with id_parrafo := 2, metodo_extraccion := some (("M2").data), embedding := some (1 / 5) }

/-- File whose first paragraph matches extraction method "M1" while the
second carries "M2". -/
def carpetaMetodosMixtos : List (List Char × List (Seccion ℚ)) :=
  [(("g.json").data, [seccionMetodoM1, seccionMetodoM2])]

/-- File filter requesting extraction method "M1". -/
def filtroMetodoM1 : Option FiltrosFichero :=
  some ⟨some ("M1").data, none, none⟩

/-- Concrete `Ficheros` table: a document outside the hardcoded id set and
one inside it. -/
def ficherosEjemplo : List FicheroRow :=
  [⟨1, ("doc1.txt").data⟩, ⟨60, ("doc60.txt").data⟩]

/-- Embedded Spanish paragraph of document 1. -/
def parrafoDoc1 : ParrafoRow :=
  ⟨1, 1, 1, ("texto uno").data, 9, some ("es").data, ("[]").data,
    some ("saltos").data, some ("PDFPlumber").data, some (".txt").data,
    some ("m").data, some ("[0.1]").data⟩

/-- Embedded Spanish paragraph of document 60. -/
def parrafoDoc60 : ParrafoRow :=
  ⟨2, 60, 1, ("texto dos").data, 9, some ("es").data, ("[]").data,
    some ("saltos").data, some ("PDFPlumber").data, some (".txt").data,
    some ("m").data, some ("[0.2]").data⟩

/-- Paragraph of document 60 with NULL embedding columns. -/
def parrafoDoc60SinEmbedding : ParrafoRow :=
  ⟨3, 60, 2, ("texto tres").data, 10, some ("es").data, ("[]").data,
    some ("saltos").data, some ("PDFPlumber").data, some (".txt").data, none, none⟩

/-- Concrete `Parrafos` table for the query evaluation. -/
def parrafosEjemplo : List ParrafoRow :=
  [parrafoDoc1, parrafoDoc60, parrafoDoc60SinEmbedding]

/-!  Theorems.  -/

theorem consideraSecciones_ok {E : Type} (dist : E → E → ℚ) (q : E)
    (fp : Option FiltrosParrafo) (u : ℚ) (archivo : List Char) :
    ∀ (ss : List (Seccion E)) (l : List (List Char × ℚ × Seccion E)),
    consideraSecciones dist q fp u archivo ss = .ok l →
    l = ss.filterMap (fun s =>
      match filtraParrafo fp s with
      | .ok true =>
        match s.embedding with
        | some e => if dist q e ≤ u then some (archivo, dist q e, s) else none
        | none => none
      | _ => none) := by
  intro ss
  induction ss with
  | nil => intro l h; simpa [consideraSecciones] using h.symm
  | cons s resto ih =>
    intro l h
    rw [consideraSecciones] at h
    cases hf : filtraParrafo fp s with
    | error e => rw [hf] at h; exact absurd h (by simp)
    | ok pasa =>
      rw [hf] at h
      cases pasa with
      | false => simpa [List.filterMap_cons, hf] using ih l h
      | true =>
        cases hemb : s.embedding with
        | none => rw [hemb] at h; simpa [List.filterMap_cons, hf, hemb] using ih l h
        | some e =>
          rw [hemb] at h
          cases hrec : consideraSecciones dist q fp u archivo resto with
          | error err => rw [hrec] at h; exact absurd h (by simp)
          | ok cola =>
            rw [hrec] at h
            by_cases hd : dist q e ≤ u
            · have hl : (archivo, dist q e, s) :: cola = l := by simpa [hd] using h
              subst hl
              simp [List.filterMap_cons, hf, hemb, hd, ih cola hrec]
            · have hl : cola = l := by simpa [hd] using h
              subst hl
              simp [List.filterMap_cons, hf, hemb, hd, ih cola hrec]

theorem consideraArchivos_ok {E : Type} (dist : E → E → ℚ) (q : E)
    (ff : Option FiltrosFichero) (fp : Option FiltrosParrafo) (u : ℚ) :
    ∀ (archivos : List (List Char × List (Seccion E))) (c : List (List Char × ℚ × Seccion E)),
    consideraArchivos dist q ff fp u archivos = .ok c →
    c = candidatosRef dist q ff fp u archivos := by
  intro archivos
  induction archivos with
  | nil => intro c h; simpa [consideraArchivos, candidatosRef] using h.symm
  | cons a resto ih =>
    intro c h
    rw [consideraArchivos] at h
    by_cases hd : ficheroDescartado ff a.2
    · rw [if_pos hd] at h
      simpa [candidatosRef, hd] using ih c h
    · rw [if_neg hd] at h
      cases hs : consideraSecciones dist q fp u a.1 a.2 with
      | error e => rw [hs] at h; exact absurd h (by simp)
      | ok l =>
        rw [hs] at h
        cases hrec : consideraArchivos dist q ff fp u resto with
        | error e => rw [hrec] at h; exact absurd h (by simp)
        | ok l2 =>
          rw [hrec] at h
          cases h
          simp [candidatosRef, hd, ih l2 hrec,
            consideraSecciones_ok dist q fp u a.1 a.2 l hs, List.flatMap_cons]

theorem candidatosRef_umbral {E : Type} (dist : E → E → ℚ) (q : E)
    (ff : Option FiltrosFichero) (fp : Option FiltrosParrafo) (u : ℚ)
    (archivos : List (List Char × List (Seccion E))) :
    ∀ x ∈ candidatosRef dist q ff fp u archivos, x.2.1 ≤ u := by
  intro x hx
  rw [candidatosRef, List.mem_flatMap] at hx
  obtain ⟨a, -, hx⟩ := hx
  rw [List.mem_filterMap] at hx
  obtain ⟨s, -, hs⟩ := hx
  cases hf : filtraParrafo fp s with
  | error e => rw [hf] at hs; simp at hs
  | ok pasa =>
    rw [hf] at hs
    cases pasa with
    | false => simp at hs
    | true =>
      cases hemb : s.embedding with
      | none => rw [hemb] at hs; simp at hs
      | some e =>
        rw [hemb] at hs
        by_cases hd : dist q e ≤ u
        · have hx : (a.1, dist q e, s) = x := by simpa [hd] using hs
          subst hx
          exact hd
        · simp [hd] at hs

theorem leDistancia_trans {E : Type} :
    ∀ (a b c : List Char × ℚ × Seccion E), leDistancia a b → leDistancia b c → leDistancia a c := by
  intro a b c hab hbc
  simp only [leDistancia, decide_eq_true_eq] at *
  exact le_trans hab hbc

theorem leDistancia_total {E : Type} :
    ∀ (a b : List Char × ℚ × Seccion E), leDistancia a b || leDistancia b a := by
  intro a b
  simp only [leDistancia, Bool.or_eq_true, decide_eq_true_eq]
  exact le_total a.2.1 b.2.1

theorem mergeSort_filtro_estable {E : Type} (cands : List (List Char × ℚ × Seccion E)) (d : ℚ) :
    (cands.mergeSort leDistancia).filter (fun x => x.2.1 == d) =
      cands.filter (fun x => x.2.1 == d) := by
  have hperm : List.Perm (cands.mergeSort leDistancia) cands := List.mergeSort_perm cands _
  have hpair : (cands.filter (fun x => x.2.1 == d)).Pairwise (fun a b => leDistancia a b) := by
    apply List.pairwise_of_forall_mem_list
    intro a ha b hb
    have ha' := (List.mem_filter.mp ha).2
    have hb' := (List.mem_filter.mp hb).2
    simp only [beq_iff_eq] at ha' hb'
    simp [leDistancia, ha', hb']
  have hsub : List.Sublist (cands.filter (fun x => x.2.1 == d)) (cands.mergeSort leDistancia) :=
    List.sublist_mergeSort leDistancia_trans leDistancia_total hpair (List.filter_sublist cands)
  have hsub2 : List.Sublist (cands.filter (fun x => x.2.1 == d))
      ((cands.mergeSort leDistancia).filter (fun x => x.2.1 == d)) := by
    have h := hsub.filter (fun x => x.2.1 == d)
    simpa using h
  have hlen : ((cands.mergeSort leDistancia).filter (fun x => x.2.1 == d)).length =
      (cands.filter (fun x => x.2.1 == d)).length := (hperm.filter _).length_eq
  exact (hsub2.eq_of_length hlen.symm).symm

theorem escenarioRanking :
    buscar_documentos_similares distEval 0 carpetaEscenario none none UMBRAL_BASE
        NUM_PARRAFOS_A_CONSIDERAR =
      .ok [(("f.json").data, 1 / 10, seccionA), (("f.json").data, 1 / 5, seccionC)] := by
  have hc : consideraArchivos distEval 0 none none UMBRAL_BASE carpetaEscenario =
      .ok [(("f.json").data, 1 / 10, seccionA), (("f.json").data, 1 / 5, seccionC)] := by
    simp only [carpetaEscenario, consideraArchivos, consideraSecciones, ficheroDescartado,
      filtraParrafo, seccionA, seccionB, seccionC, seccionBase, distEval, UMBRAL_BASE]
    norm_num
  have hsorted : List.Pairwise (fun a b => leDistancia a b = true)
      [(("f.json").data, (1 : ℚ) / 10, seccionA), (("f.json").data, (1 : ℚ) / 5, seccionC)] := by
    simp [leDistancia]
    norm_num
  rw [buscar_documentos_similares, hc]
  show Except.ok ((List.mergeSort
    [(("f.json").data, (1 : ℚ) / 10, seccionA), (("f.json").data, (1 : ℚ) / 5, seccionC)]
    leDistancia).take NUM_PARRAFOS_A_CONSIDERAR) = _
  rw [List.mergeSort_of_sorted hsorted]
  rfl

/-- C1: for every query vector, candidate set, threshold and cutoff,
`buscar_documentos_similares` keeps exactly the candidates whose cosine
distance is at most the threshold (equality kept), sorts them ascending by
distance with ties left in retrieval order (stable sort), and truncates to
the first `top_k`; on the candidates A at 0.10, B at 0.50 and C at 0.20
with threshold 0.30 and top_k 5 the result is exactly A then C, with B
excluded. -/
theorem ranking_filtra_ordena_estable_trunca {E : Type}
    (dist : E → E → ℚ) (q : E) (archivos : List (List Char × List (Seccion E)))
    (ff : Option FiltrosFichero) (fp : Option FiltrosParrafo) (umbral : ℚ) (k : Nat)
    (r : List (List Char × ℚ × Seccion E))
    (h : buscar_documentos_similares dist q archivos ff fp umbral k = .ok r) :
    (∀ x ∈ r, x.2.1 ≤ umbral) ∧
    r.Pairwise (fun a b => leDistancia a b) ∧
    r.length ≤ k ∧
    r = ((candidatosRef dist q ff fp umbral archivos).mergeSort leDistancia).take k ∧
    (∀ d : ℚ, ((candidatosRef dist q ff fp umbral archivos).mergeSort leDistancia).filter
        (fun x => x.2.1 == d) =
      (candidatosRef dist q ff fp umbral archivos).filter (fun x => x.2.1 == d)) ∧
    buscar_documentos_similares distEval 0 carpetaEscenario none none UMBRAL_BASE
        NUM_PARRAFOS_A_CONSIDERAR =
      .ok [(("f.json").data, 1 / 10, seccionA), (("f.json").data, 1 / 5, seccionC)] := by
  rw [buscar_documentos_similares] at h
  cases hc : consideraArchivos dist q ff fp umbral archivos with
  | error e => rw [hc] at h; exact absurd h (by simp)
  | ok c =>
    rw [hc] at h
    have hval : ((c.mergeSort leDistancia).take k) = r := by simpa using h
    have hcref : c = candidatosRef dist q ff fp umbral archivos :=
      consideraArchivos_ok dist q ff fp umbral archivos c hc
    subst hcref
    subst hval
    refine ⟨?_, ?_, ?_, rfl, fun d => mergeSort_filtro_estable _ d, escenarioRanking⟩
    · intro x hx
      have hx' := (List.take_sublist _ _).mem hx
      have hx'' := List.mem_mergeSort.mp hx'
      exact candidatosRef_umbral dist q ff fp umbral archivos x hx''
    · exact (List.sorted_mergeSort leDistancia_trans leDistancia_total _).sublist
        (List.take_sublist _ _)
    · exact List.length_take_le _ _

/-- Closed instance of the C1 theorem at the end-to-end scenario. -/
theorem ranking_filtra_ordena_estable_trunca_witness :
    ([(("f.json").data, (1 : ℚ) / 10, seccionA), (("f.json").data, (1 : ℚ) / 5, seccionC)]).length ≤
      NUM_PARRAFOS_A_CONSIDERAR :=
  (ranking_filtra_ordena_estable_trunca distEval 0 carpetaEscenario none none UMBRAL_BASE
    NUM_PARRAFOS_A_CONSIDERAR _ escenarioRanking).2.2.1

/-- C3: when zero candidates survive thresholding the ranking returns the
empty sequence as a regular value, and on an empty ranked list the answer
generator returns the fixed sentinel string, independently of the external
chat model (which is therefore never consulted). -/
theorem sin_candidatos_respuesta_centinela :
    (∀ (E : Type) (dist : E → E → ℚ) (q : E)
      (archivos : List (List Char × List (Seccion E)))
      (ff : Option FiltrosFichero) (fp : Option FiltrosParrafo) (umbral : ℚ) (k : Nat),
      consideraArchivos dist q ff fp umbral archivos = .ok [] →
      buscar_documentos_similares dist q archivos ff fp umbral k = .ok []) ∧
    (∀ (E : Type) (chat chat' : List Char → List Char) (fmt fmt' : ℚ → List Char)
      (pregunta : List Char),
      generar_respuesta_con_ollama (E := E) chat fmt [] pregunta =
        ("No se encontró una respuesta clara en los documentos.").data ∧
      generar_respuesta_con_ollama (E := E) chat fmt [] pregunta =
        generar_respuesta_con_ollama (E := E) chat' fmt' [] pregunta) := by
  constructor
  · intro E dist q archivos ff fp umbral k h
    rw [buscar_documentos_similares, h]
    simp
  · intro E chat chat' fmt fmt' pregunta
    exact ⟨rfl, rfl⟩

/-- Closed instance of the C3 theorem: an empty embeddings folder yields the
empty ranked list and the sentinel answer. -/
theorem sin_candidatos_respuesta_centinela_witness :
    buscar_documentos_similares distEval 0 [] none none UMBRAL_BASE 5 = .ok [] ∧
    generar_respuesta_con_ollama (E := ℚ) id (fun _ => []) [] (("p").data) =
      ("No se encontró una respuesta clara en los documentos.").data :=
  ⟨(sin_candidatos_respuesta_centinela.1 ℚ distEval 0 [] none none UMBRAL_BASE 5 rfl),
   (sin_candidatos_respuesta_centinela.2 ℚ id id (fun _ => []) (fun _ => []) (("p").data)).1⟩

/-- Every application of a store operation preserves the embedding
invariant. -/
theorem aplicaOp_invariante (db : List ParrafoRow) (op : OpParrafo)
    (h : invariEmbedding db) : invariEmbedding (aplicaOp db op) := by
  cases op with
  | insertar rid idf idp texto lon idio tit est met tip =>
    intro p hp
    rcases List.mem_append.mp hp with hp | hp
    · exact h p hp
    · simp only [List.mem_singleton] at hp
      subst hp
      rfl
  | actualizar rid emb mod =>
    intro p hp
    rw [aplicaOp, List.mem_map] at hp
    obtain ⟨p0, hp0, hval⟩ := hp
    by_cases hid : p0.rid == rid
    · rw [if_pos hid] at hval
      subst hval
      rfl
    · rw [if_neg hid] at hval
      subst hval
      exact h p0 hp0

/-- C7: insertion creates a paragraph row with embedding and model both
NULL, the update writes both columns in its single statement, and therefore
the both-null-or-both-set invariant holds in every state reachable by any
sequence of store operations from an invariant state. -/
theorem invariante_embedding_modelo :
    (∀ (db : List ParrafoRow) (rid idf idp : Int) (texto : List Char) (lon : Int)
      (idio : Option (List Char)) (tit : List Char) (est met tip : Option (List Char)),
      ∃ fila, aplicaOp db (.insertar rid idf idp texto lon idio tit est met tip) =
        db ++ [fila] ∧ fila.modelo_embedding = none ∧ fila.embedding = none) ∧
    (∀ (db : List ParrafoRow) (rid : Int) (emb mod : List Char),
      ∀ p ∈ aplicaOp db (.actualizar rid emb mod),
        p ∈ db ∨ (p.embedding = some emb ∧ p.modelo_embedding = some mod)) ∧
    (∀ (ops : List OpParrafo) (db : List ParrafoRow),
      invariEmbedding db → invariEmbedding (ops.foldl aplicaOp db)) := by
  refine ⟨?_, ?_, ?_⟩
  · intro db rid idf idp texto lon idio tit est met tip
    exact ⟨_, rfl, rfl, rfl⟩
  · intro db rid emb mod p hp
    rw [aplicaOp, List.mem_map] at hp
    obtain ⟨p0, hp0, hval⟩ := hp
    by_cases hid : p0.rid == rid
    · rw [if_pos hid] at hval
      subst hval
      exact Or.inr ⟨rfl, rfl⟩
    · rw [if_neg hid] at hval
      subst hval
      exact Or.inl hp0
  · intro ops
    induction ops with
    | nil => intro db h; exact h
    | cons op resto ih =>
      intro db h
      exact ih (aplicaOp db op) (aplicaOp_invariante db op h)

/-- Closed instance of the C7 theorem: after one insertion and one update
starting from the empty table, the invariant holds. -/
theorem invariante_embedding_modelo_witness :
    invariEmbedding
      ([OpParrafo.insertar 1 1 1 (("t").data) 1 none [] none none none,
        OpParrafo.actualizar 1 (("[0.1]").data) (("m").data)].foldl aplicaOp []) :=
  invariante_embedding_modelo.2.2 _ [] (by intro p hp; cases hp)

/-- C2 is code_bug: evaluated with no supplied filters (language left at its
default "es"), the query returns the rows of documents 60 and 61 only —
the embedded paragraph of document 1 is missing although it satisfies every
supplied filter — and it does return the row whose embedding columns are
NULL, so no non-null-embedding condition is enforced either. -/
theorem consulta_parrafos_restringida_a_ficheros_60_61 :
    obtener_parrafos_para_consulta ficherosEjemplo parrafosEjemplo
        none none none idiomaPorDefecto none none =
      [(("texto dos").data, some (("[0.2]").data), ("doc60.txt").data, 1),
       (("texto tres").data, none, ("doc60.txt").data, 2)] ∧
    parrafoDoc1.embedding.isSome = true ∧
    parrafoDoc1.idioma = idiomaPorDefecto ∧
    parrafoDoc60SinEmbedding.embedding = none := by
  exact ⟨rfl, rfl, rfl, rfl⟩

/-- Counterexample to C9 as stated: with the model filter "org-a/model"
supplied, a candidate storing the distinct identifier "org-b/model" reaches
distance computation and the ranked result. -/
theorem filtro_modelo_compara_solo_base :
    buscar_documentos_similares distEval 0 [(("f.json").data, [seccionOtroModelo])]
        none filtroModeloA UMBRAL_BASE NUM_PARRAFOS_A_CONSIDERAR =
      .ok [(("f.json").data, 1 / 10, seccionOtroModelo)] ∧
    seccionOtroModelo.modelo_embedding = some (("org-b/model").data) ∧
    ("org-b/model").data ≠ ("org-a/model").data := by
  refine ⟨?_, rfl, by decide⟩
  have hle : ((1 : ℚ) / 10 ≤ 30 / 100) := by norm_num
  have hc : consideraArchivos distEval 0 none filtroModeloA UMBRAL_BASE
      [(("f.json").data, [seccionOtroModelo])] =
      .ok [(("f.json").data, 1 / 10, seccionOtroModelo)] := by
    simp [consideraArchivos, consideraSecciones, ficheroDescartado, filtraParrafo,
      filtroModeloA, seccionOtroModelo, seccionBase, distEval, UMBRAL_BASE,
      ultimoComponente, pySplitChar, pySplitCharAux, valorActivo, hle]
    norm_num
  rw [buscar_documentos_similares, hc]
  show Except.ok ((List.mergeSort [(("f.json").data, (1 : ℚ) / 10, seccionOtroModelo)]
    leDistancia).take NUM_PARRAFOS_A_CONSIDERAR) = _
  rw [List.mergeSort_singleton]
  rfl

/-- C9 amended: whenever a (truthy) embedding-model filter is supplied,
every candidate reaching the ranked result of the file-based path stores a
model identifier whose final "/"-component equals that of the requested
identifier (full identifiers may differ); in the database path the stored
identifier equals the requested one exactly. -/
theorem modelo_filtrado_mismo_componente_final :
    (∀ (E : Type) (dist : E → E → ℚ) (q : E)
      (archivos : List (List Char × List (Seccion E))) (ff : Option FiltrosFichero)
      (f : FiltrosParrafo) (fm : List Char) (umbral : ℚ) (k : Nat)
      (r : List (List Char × ℚ × Seccion E)),
      f.modelo_embedding = some fm → fm.isEmpty = false →
      buscar_documentos_similares dist q archivos ff (some f) umbral k = .ok r →
      ∀ x ∈ r, ∃ sm, x.2.2.modelo_embedding = some sm ∧
        ultimoComponente sm = ultimoComponente fm) ∧
    (∀ (ficheros : List FicheroRow) (parrafos : List ParrafoRow)
      (met tip est idi : Option (List Char)) (m : List Char) (idf : Option Int)
      (p : ParrafoRow), m.isEmpty = false → p ∈ parrafos →
      (∃ fr ∈ ficheros, cumpleConsulta met tip est idi (some m) idf fr p) →
      p.modelo_embedding = some m) := by
  constructor
  · intro E dist q archivos ff f fm umbral k r hf hfm h x hx
    rw [buscar_documentos_similares] at h
    cases hc : consideraArchivos dist q ff (some f) umbral archivos with
    | error e => rw [hc] at h; exact absurd h (by simp)
    | ok c =>
      rw [hc] at h
      have hval : ((c.mergeSort leDistancia).take k) = r := by simpa using h
      have hcref := consideraArchivos_ok dist q ff (some f) umbral archivos c hc
      subst hval
      have hx' := List.mem_mergeSort.mp ((List.take_sublist _ _).mem hx)
      rw [hcref, candidatosRef, List.mem_flatMap] at hx'
      obtain ⟨a, -, hx'⟩ := hx'
      rw [List.mem_filterMap] at hx'
      obtain ⟨s, -, hs⟩ := hx'
      cases hfp : filtraParrafo (some f) s with
      | error e => rw [hfp] at hs; simp at hs
      | ok pasa =>
        rw [hfp] at hs
        cases pasa with
        | false => simp at hs
        | true =>
          have hxs : x.2.2 = s := by
            cases hemb : s.embedding with
            | none => rw [hemb] at hs; simp at hs
            | some e =>
              rw [hemb] at hs
              by_cases hd : dist q e ≤ umbral
              · have : (a.1, dist q e, s) = x := by simpa [hd] using hs
                subst this; rfl
              · simp [hd] at hs
          rw [filtraParrafo] at hfp
          by_cases h1 : valorActivo f.estrategia_segmentacion &&
              !(s.estrategia_segmentacion == f.estrategia_segmentacion)
          · rw [if_pos h1] at hfp; exact absurd hfp (by simp)
          · rw [if_neg h1] at hfp
            by_cases h2 : valorActivo f.idioma && !(s.idioma == f.idioma)
            · rw [if_pos h2] at hfp; exact absurd hfp (by simp)
            · rw [if_neg h2] at hfp
              rw [hf] at hfp
              simp only [hfm, Bool.false_eq_true, if_false] at hfp
              cases hsm : s.modelo_embedding with
              | none => rw [hsm] at hfp; simp at hfp
              | some sm =>
                rw [hsm] at hfp
                have hcomp : (ultimoComponente sm == ultimoComponente fm) = true := by
                  simpa using hfp
                exact ⟨sm, by rw [hxs]; exact hsm, by simpa using hcomp⟩
  · intro ficheros parrafos met tip est idi m idf p hm hp hex
    obtain ⟨fr, -, hc⟩ := hex
    rw [cumpleConsulta] at hc
    have : (!valorActivo (some m) || p.modelo_embedding == some m) = true := by
      simp only [Bool.and_eq_true] at hc
      exact hc.1.1.1.1.1.2
    rw [valorActivo, hm] at this
    simpa using this

/-- Closed instance of the C9 amended theorem at the cross-organisation
model run. -/
theorem modelo_filtrado_mismo_componente_final_witness :
    ∃ sm, seccionOtroModelo.modelo_embedding = some sm ∧
      ultimoComponente sm = ultimoComponente (("org-a/model").data) :=
  modelo_filtrado_mismo_componente_final.1 ℚ distEval 0
    [(("f.json").data, [seccionOtroModelo])] none ⟨none, none, some (("org-a/model").data)⟩
    (("org-a/model").data) UMBRAL_BASE NUM_PARRAFOS_A_CONSIDERAR
    [(("f.json").data, 1 / 10, seccionOtroModelo)] rfl rfl
    filtro_modelo_compara_solo_base.1
    (("f.json").data, 1 / 10, seccionOtroModelo) (by simp)

/-- C10: the file-level filters of the file-based retrieval path are
evaluated on the first paragraph only — an empty paragraph list is never
discarded, the decision is independent of the remaining paragraphs, and in
a concrete run a second paragraph whose extraction method differs from the
supplied filter still reaches ranking because the first paragraph
matches. -/
theorem filtros_fichero_solo_primer_parrafo :
    (∀ (E : Type) (ff : Option FiltrosFichero),
      ficheroDescartado (E := E) ff [] = false) ∧
    (∀ (E : Type) (ff : Option FiltrosFichero) (p : Seccion E)
      (resto resto' : List (Seccion E)),
      ficheroDescartado ff (p :: resto) = ficheroDescartado ff (p :: resto')) ∧
    buscar_documentos_similares distEval 0 carpetaMetodosMixtos filtroMetodoM1 none
        UMBRAL_BASE NUM_PARRAFOS_A_CONSIDERAR =
      .ok [(("g.json").data, 1 / 10, seccionMetodoM1),
           (("g.json").data, 1 / 5, seccionMetodoM2)] ∧
    seccionMetodoM2.metodo_extraccion ≠ some (("M1").data) := by
  refine ⟨?_, ?_, ?_, by decide⟩
  · intro E ff; cases ff <;> rfl
  · intro E ff p resto resto'; cases ff <;> rfl
  · have hc : consideraArchivos distEval 0 filtroMetodoM1 none UMBRAL_BASE
        carpetaMetodosMixtos =
        .ok [(("g.json").data, 1 / 10, seccionMetodoM1),
             (("g.json").data, 1 / 5, seccionMetodoM2)] := by
      simp only [carpetaMetodosMixtos, consideraArchivos, consideraSecciones,
        ficheroDescartado, filtraParrafo, filtroMetodoM1, seccionMetodoM1, seccionMetodoM2,
        seccionBase, distEval, UMBRAL_BASE]
      norm_num [valorActivo]
    have hsorted : List.Pairwise (fun a b => leDistancia a b = true)
        [(("g.json").data, (1 : ℚ) / 10, seccionMetodoM1),
         (("g.json").data, (1 : ℚ) / 5, seccionMetodoM2)] := by
      simp [leDistancia]
      norm_num
    rw [buscar_documentos_similares, hc]
    show Except.ok ((List.mergeSort
      [(("g.json").data, (1 : ℚ) / 10, seccionMetodoM1),
       (("g.json").data, (1 : ℚ) / 5, seccionMetodoM2)]
      leDistancia).take NUM_PARRAFOS_A_CONSIDERAR) = _
    rw [List.mergeSort_of_sorted hsorted]
    rfl

/-- C4: every paragraph emitted by length-threshold segmentation has at
least 100 characters (any buffer of up to 100 characters, the final one
included, is filtered out), and the accumulation loop closes the buffer
exactly when the buffer and the next fragment together reach or exceed the
threshold, the triggering fragment starting the next buffer. -/
theorem longitud_minima_parrafos_segmentados (texto : List Char) (u : Nat) :
    (∀ p ∈ segmentar_por_longitud texto u, 100 ≤ p.length) ∧
    (∀ (buffer fragmento : List Char) (resto : List (List Char)),
      buffer.isEmpty = false →
      (buffer.length + fragmento.length < u →
        acumulaFragmentos u buffer (fragmento :: resto) =
          acumulaFragmentos u (buffer ++ ' ' :: fragmento) resto) ∧
      (u ≤ buffer.length + fragmento.length →
        acumulaFragmentos u buffer (fragmento :: resto) =
          pyStrip buffer :: acumulaFragmentos u fragmento resto)) := by
  constructor
  · intro p hp
    rw [segmentar_por_longitud] at hp
    have := (List.mem_filter.mp hp).2
    simp only [decide_eq_true_eq] at this
    omega
  · intro buffer fragmento resto hb
    constructor
    · intro hlt
      rw [acumulaFragmentos, hb]
      simp [hlt]
    · intro hge
      rw [acumulaFragmentos, hb]
      simp [Nat.not_lt.mpr hge]

/-- Closed instance of the C4 theorem: a single 110-character fragment is
emitted unchanged and satisfies the bound. -/
theorem longitud_minima_parrafos_segmentados_witness :
    100 ≤ (List.replicate 110 'a').length :=
  (longitud_minima_parrafos_segmentados (List.replicate 110 'a') 400).1
    (List.replicate 110 'a') (by decide)

/-- Counterexample to C5 as stated: the line "ISO ALCANCE", whose first
whitespace-separated token is the literal "ISO", is classified as a title
by `es_titulo` (through the all-caps rule; the detector has no ISO
guard). -/
theorem iso_alcance_es_titulo :
    es_titulo (("ISO ALCANCE").data) = true ∧
    primeraPalabra (("ISO ALCANCE").data) = ("ISO").data := by
  exact ⟨by decide, by decide⟩

theorem pyRStrip_descomposicion (m : List Char) :
    ∃ suf, pyRStrip m ++ suf = m ∧ ∀ c ∈ suf, esEspacio c := by
  refine ⟨(m.reverse.takeWhile esEspacio).reverse, ?_, ?_⟩
  · calc pyRStrip m ++ (m.reverse.takeWhile esEspacio).reverse
        = (m.reverse.takeWhile esEspacio ++ m.reverse.dropWhile esEspacio).reverse := by
          rw [List.reverse_append]; rfl
      _ = m.reverse.reverse := by rw [List.takeWhile_append_dropWhile]
      _ = m := List.reverse_reverse m
  · intro c hc
    exact List.mem_takeWhile_imp (List.mem_reverse.mp hc)

theorem takeWhile_palabra_append (pre suf : List Char) (hsuf : ∀ c ∈ suf, esEspacio c) :
    (pre ++ suf).takeWhile (fun c => !esEspacio c) =
      pre.takeWhile (fun c => !esEspacio c) := by
  rw [List.takeWhile_append]
  by_cases hlen : (pre.takeWhile (fun c => !esEspacio c)).length = pre.length
  · rw [if_pos hlen]
    have htw : pre.takeWhile (fun c => !esEspacio c) = pre :=
      (List.takeWhile_sublist _).eq_of_length hlen
    have hnil : suf.takeWhile (fun c => !esEspacio c) = [] := by
      cases suf with
      | nil => rfl
      | cons s resto =>
        have := hsuf s (List.mem_cons_self s resto)
        simp [List.takeWhile_cons, this]
    rw [hnil, htw, List.append_nil]
  · rw [if_neg hlen]

theorem primeraPalabra_pyStrip (l : List Char) :
    primeraPalabra (pyStrip l) = primeraPalabra l := by
  rw [pyStrip, pyLStrip, primeraPalabra, primeraPalabra]
  have hhd := List.head?_dropWhile_not esEspacio l
  generalize hm : l.dropWhile esEspacio = m at hhd ⊢
  cases m with
  | nil => rw [pyRStrip]; simp
  | cons c t =>
    have hc : esEspacio c = false := by simpa using hhd
    obtain ⟨suf, hsplit, hsuf⟩ := pyRStrip_descomposicion (c :: t)
    cases hrs : pyRStrip (c :: t) with
    | nil =>
      rw [hrs] at hsplit
      simp only [List.nil_append] at hsplit
      have habs : esEspacio c = true := hsuf c (by rw [hsplit]; exact List.mem_cons_self c t)
      rw [hc] at habs
      cases habs
    | cons d t' =>
      rw [hrs] at hsplit
      have hd : d = c := by
        have := congrArg (fun x => x.head?) hsplit
        simpa using this
      subst hd
      rw [List.dropWhile_cons_of_neg (by simp [hc])]
      calc (d :: t').takeWhile (fun x => !esEspacio x)
          = ((d :: t') ++ suf).takeWhile (fun x => !esEspacio x) :=
            (takeWhile_palabra_append _ suf hsuf).symm
        _ = (d :: t).takeWhile (fun x => !esEspacio x) := by rw [hsplit]

/-- C5 amended: in `es_titulo` a line whose first whitespace-separated token
is the literal "ISO" can only be a title through the all-caps rule — the
numeric, single-letter and Roman rules never fire on it, there is no
dedicated ISO guard — so `es_titulo` on such a line equals the all-caps
test of the stripped line together with the minimum-length test; in
particular `es_titulo "ISO 27001"` is false, and the documentation-variant
title decision (which does carry an explicit ISO guard) is always false on
such a line. -/
theorem primera_palabra_iso_solo_mayusculas :
    (∀ linea : List Char, primeraPalabra linea = ("ISO").data →
      es_titulo linea =
        (decide (5 ≤ (pyStrip linea).length) && tituloMayusculasMatch (pyStrip linea))) ∧
    es_titulo (("ISO 27001").data) = false ∧
    (∀ linea : List Char, (primeraPalabra linea).map Char.toUpper = ("ISO").data →
      esTituloDocConGuardas linea = false) := by
  refine ⟨?_, by decide, ?_⟩
  · intro linea hp
    have h1 : ((pyStrip linea).dropWhile esEspacio).takeWhile (fun c => !esEspacio c) =
        'I' :: 'S' :: 'O' :: [] := by
      have := (primeraPalabra_pyStrip linea).trans hp
      rw [primeraPalabra] at this
      exact this
    have hmeq : (pyStrip linea).dropWhile esEspacio =
        'I' :: 'S' :: 'O' :: (((pyStrip linea).dropWhile esEspacio).dropWhile
          (fun c => !esEspacio c)) := by
      conv_lhs => rw [← List.takeWhile_append_dropWhile (fun c => !esEspacio c)
        ((pyStrip linea).dropWhile esEspacio)]
      rw [h1]
      rfl
    have hIdig : esDigito 'I' = false := by decide
    have hIlet : esLetraAscii 'I' = true := by decide
    have hIrom : esRomanoChar 'I' = true := by decide
    have hSrom : esRomanoChar 'S' = false := by decide
    have hSesp : esEspacio 'S' = false := by decide
    have hnum : tituloNumericoMatch (pyStrip linea) = false := by
      rw [tituloNumericoMatch, hmeq]
      simp [List.takeWhile_cons, hIdig]
    have hlet : tituloLetraMatch (pyStrip linea) = false := by
      rw [tituloLetraMatch, hmeq]
      simp [List.takeWhile_cons, hIlet, hSesp]
    have hrom : tituloRomanoGroup (pyStrip linea) = none := by
      rw [tituloRomanoGroup, hmeq]
      simp [List.takeWhile_cons, hIrom, hSrom, hSesp]
    rw [es_titulo]
    by_cases h5 : (pyStrip linea).length < 5
    · have h5' : ¬ (5 ≤ (pyStrip linea).length) := by omega
      simp [h5, h5']
    · have h5' : 5 ≤ (pyStrip linea).length := Nat.not_lt.mp h5
      simp [h5, h5', hnum, hlet, hrom]
  · intro linea hp
    rw [esTituloDocConGuardas, hp]
    simp

/-- Closed instance of the C5 amended theorem at the line "ISO Alcance". -/
theorem primera_palabra_iso_solo_mayusculas_witness :
    es_titulo (("ISO Alcance").data) =
      (decide (5 ≤ (pyStrip (("ISO Alcance").data)).length) &&
        tituloMayusculasMatch (pyStrip (("ISO Alcance").data))) :=
  primera_palabra_iso_solo_mayusculas.1 (("ISO Alcance").data) (by decide)

theorem segmentarPorTituloAux_sin_titulos (rest : List (List Char)) :
    ∀ (pre buffer : List (List Char)), (∀ l ∈ pre, es_titulo l = false) →
    segmentarPorTituloAux buffer (pre ++ rest) =
      segmentarPorTituloAux (buffer ++ pre) rest := by
  intro pre
  induction pre with
  | nil => intro buffer h; simp
  | cons l pre' ih =>
    intro buffer h
    have hl : es_titulo l = false := h l (List.mem_cons_self l pre')
    rw [List.cons_append, segmentarPorTituloAux, hl]
    simp only [Bool.false_eq_true, if_false]
    rw [ih (buffer ++ [l]) (fun x hx => h x (List.mem_cons_of_mem _ hx))]
    rw [List.append_assoc]
    rfl

/-- Counterexample to C6 as stated: in the documentation variant of
title-based segmentation, the non-empty leading line before the first
detected title is silently dropped from the output. -/
theorem doc_variante_descarta_contenido_inicial :
    segmentarPorTituloDoc (("Introduccion previa\n1. Titulo\nCuerpo del segmento").data) =
      [("1. Titulo\nCuerpo del segmento").data] ∧
    pyStrip (("Introduccion previa").data) ≠ [] ∧
    esTituloDocConGuardas (("Introduccion previa").data) = false ∧
    esTituloDocConGuardas (("1. Titulo").data) = true := by
  exact ⟨by decide, by decide, by decide, by decide⟩

/-- C6 amended: in `segmentar_por_titulo` of `src/segmentation.py`,
whenever the lines before the first title-detected line are non-empty,
that leading content is emitted as a segment of its own (the first one);
the documentation variant instead discards a segment that has no title. -/
theorem contenido_inicial_emitido_con_titulo (texto : List Char)
    (pre : List (List Char)) (ti : List Char) (resto : List (List Char))
    (hsplit : pySplitLines texto = pre ++ ti :: resto)
    (hpre : ∀ l ∈ pre, es_titulo l = false)
    (hti : es_titulo ti = true)
    (hne : pre ≠ []) :
    ∃ cola, segmentar_por_titulo texto = pyStrip (unirCon '\n' pre) :: cola := by
  rw [segmentar_por_titulo, hsplit]
  rw [segmentarPorTituloAux_sin_titulos (ti :: resto) pre [] hpre]
  rw [List.nil_append]
  rw [segmentarPorTituloAux, hti]
  have hpe : pre.isEmpty = false := by
    cases pre with
    | nil => exact absurd rfl hne
    | cons a b => rfl
  simp only [hpe, Bool.false_eq_true, if_false, if_true]
  exact ⟨_, rfl⟩

/-- Closed instance of the C6 amended theorem: a non-title leading line
followed by an all-caps title is emitted as the first segment. -/
theorem contenido_inicial_emitido_con_titulo_witness :
    (segmentar_por_titulo (("texto previo.\nPOLÍTICA DE SEGURIDAD\ncuerpo final.").data)).head? =
      some (pyStrip (unirCon '\n' [("texto previo.").data])) := by
  obtain ⟨cola, hc⟩ := contenido_inicial_emitido_con_titulo
    (("texto previo.\nPOLÍTICA DE SEGURIDAD\ncuerpo final.").data)
    [("texto previo.").data] (("POLÍTICA DE SEGURIDAD").data) [("cuerpo final.").data]
    (by decide) (by decide) (by decide) (by decide)
  rw [hc]
  rfl

theorem ultimoIndiceDe_lt_length (c : Char) :
    ∀ (l : List Char) (j : Nat), ultimoIndiceDe c l = some j → j < l.length := by
  intro l
  induction l with
  | nil => intro j h; simp [ultimoIndiceDe] at h
  | cons x resto ih =>
    intro j h
    rw [ultimoIndiceDe] at h
    cases hrec : ultimoIndiceDe c resto with
    | some i =>
      rw [hrec] at h
      cases h
      have := ih i hrec
      simp only [List.length_cons]
      omega
    | none =>
      rw [hrec] at h
      by_cases hx : x = c
      · rw [if_pos hx] at h; cases h; simp
      · rw [if_neg hx] at h; cases h

theorem take_sepDobleSalto_espacios (cs : List Char) :
    ∀ x ∈ cs.take (sepDobleSalto cs), esEspacio x = true := by
  intro x hx
  rw [sepDobleSalto.eq_def] at hx
  cases cs with
  | nil => simp at hx
  | cons c resto =>
    dsimp only at hx
    by_cases hc : c = '\n'
    · rw [if_pos hc] at hx
      cases hj : ultimoIndiceDe '\n' ((c :: resto).takeWhile esEspacio) with
      | none => rw [hj] at hx; simp at hx
      | some j =>
        rw [hj] at hx
        dsimp only at hx
        by_cases h1 : 1 ≤ j
        · rw [if_pos h1] at hx
          have hjl : j < ((c :: resto).takeWhile esEspacio).length :=
            ultimoIndiceDe_lt_length '\n' _ j hj
          have hcs : (c :: resto).take (j + 1) =
              ((c :: resto).takeWhile esEspacio).take (j + 1) := by
            conv_lhs => rw [← List.takeWhile_append_dropWhile esEspacio (c :: resto)]
            rw [List.take_append_of_le_length (by omega)]
          rw [hcs] at hx
          exact List.mem_takeWhile_imp ((List.take_sublist _ _).mem hx)
        · rw [if_neg h1] at hx; simp at hx
    · rw [if_neg hc] at hx; simp at hx

theorem take_sepSaltos_espacios (lax : Bool) (prev : Option Char) (cs : List Char) :
    ∀ x ∈ cs.take (sepSaltos lax prev cs), esEspacio x = true := by
  intro x hx
  rw [sepSaltos] at hx
  by_cases ha : sepDobleSalto cs ≠ 0
  · rw [if_pos ha] at hx
    exact take_sepDobleSalto_espacios cs x hx
  · rw [if_neg ha] at hx
    rw [sepPuntoSalto.eq_def] at hx
    cases cs with
    | nil => simp at hx
    | cons c resto =>
      dsimp only at hx
      by_cases hcond : (c = '\n' && prev == some '.' && miraMayuscula lax resto) = true
      · rw [if_pos hcond] at hx
        simp only [List.take_succ_cons, List.take_zero, List.mem_singleton] at hx
        subst hx
        have hc : x = '\n' := by
          simp only [Bool.and_eq_true, decide_eq_true_eq] at hcond
          exact hcond.1.1
        rw [hc]
        decide
      · rw [if_neg hcond] at hx; simp at hx

theorem splitSaltosAux_contenido (lax : Bool) :
    ∀ (fuel : Nat) (prev : Option Char) (cur cs : List Char),
    ((splitSaltosAux lax fuel prev cur cs).flatten).filter (fun c => !esEspacio c) =
      (cur.reverse ++ cs).filter (fun c => !esEspacio c) := by
  intro fuel
  induction fuel with
  | zero =>
    intro prev cur cs
    cases cs with
    | nil => simp [splitSaltosAux]
    | cons c resto => simp [splitSaltosAux]
  | succ fuel ih =>
    intro prev cur cs
    cases cs with
    | nil => simp [splitSaltosAux]
    | cons c resto =>
      rw [splitSaltosAux]
      by_cases hm : sepSaltos lax prev (c :: resto) = 0
      · rw [if_pos hm, ih]
        simp [List.filter_append, List.append_assoc]
      · rw [if_neg hm]
        rw [List.flatten_cons, List.filter_append, ih]
        have hnil : ((c :: resto).take (sepSaltos lax prev (c :: resto))).filter
            (fun c => !esEspacio c) = [] := by
          rw [List.filter_eq_nil_iff]
          intro a ha
          simp [take_sepSaltos_espacios lax prev (c :: resto) a ha]
        calc (cur.reverse).filter (fun c => !esEspacio c) ++
              (([] : List Char).reverse ++ (c :: resto).drop (sepSaltos lax prev (c :: resto))).filter
                (fun c => !esEspacio c)
            = (cur.reverse).filter (fun c => !esEspacio c) ++
              (((c :: resto).take (sepSaltos lax prev (c :: resto))).filter (fun c => !esEspacio c) ++
               ((c :: resto).drop (sepSaltos lax prev (c :: resto))).filter (fun c => !esEspacio c)) := by
              rw [hnil]; simp
          _ = (cur.reverse ++ c :: resto).filter (fun c => !esEspacio c) := by
              rw [← List.filter_append, List.take_append_drop, List.filter_append]

theorem filter_noEsp_dropWhile (l : List Char) :
    (l.dropWhile esEspacio).filter (fun c => !esEspacio c) =
      l.filter (fun c => !esEspacio c) := by
  induction l with
  | nil => rfl
  | cons c resto ih =>
    by_cases hc : esEspacio c = true
    · rw [List.dropWhile_cons_of_pos hc, ih, List.filter_cons]
      simp [hc]
    · rw [List.dropWhile_cons_of_neg hc]

theorem filter_noEsp_pyStrip (l : List Char) :
    (pyStrip l).filter (fun c => !esEspacio c) = l.filter (fun c => !esEspacio c) := by
  rw [pyStrip, pyLStrip, pyRStrip]
  rw [List.filter_reverse, filter_noEsp_dropWhile, List.filter_reverse,
    List.reverse_reverse, filter_noEsp_dropWhile]

theorem filter_noEsp_flatten_map_pyStrip (L : List (List Char)) :
    ((L.map pyStrip).flatten).filter (fun c => !esEspacio c) =
      (L.flatten).filter (fun c => !esEspacio c) := by
  induction L with
  | nil => rfl
  | cons l resto ih =>
    simp only [List.map_cons, List.flatten_cons, List.filter_append, ih,
      filter_noEsp_pyStrip]

theorem flatten_filter_no_vacios (L : List (List Char)) :
    (L.filter (fun p => !p.isEmpty)).flatten = L.flatten := by
  induction L with
  | nil => rfl
  | cons l resto ih =>
    by_cases hl : l.isEmpty = true
    · have : l = [] := by cases l with | nil => rfl | cons a b => simp at hl
      subst this
      simp [List.filter_cons, ih]
    · rw [List.filter_cons]
      simp only [hl, Bool.not_false, if_true, List.flatten_cons, ih]

theorem sublist_flatten {l₁ l₂ : List (List Char)} (h : List.Sublist l₁ l₂) :
    List.Sublist l₁.flatten l₂.flatten := by
  induction h with
  | slnil => exact List.Sublist.refl _
  | cons a h ih =>
    rw [List.flatten_cons]
    exact List.sublist_append_of_sublist_right ih
  | cons₂ a h ih =>
    rw [List.flatten_cons, List.flatten_cons]
    exact ih.append_left a

theorem filter_noEsp_normalizaAux (l : List Char) :
    ∀ b, (normalizaSaltosAux b l).filter (fun c => !esEspacio c) =
      l.filter (fun c => !esEspacio c) := by
  induction l with
  | nil => intro b; rfl
  | cons c resto ih =>
    intro b
    by_cases hc : c = '\n'
    · subst hc
      cases b <;>
        simp [normalizaSaltosAux, List.filter_cons, ih,
          show (!esEspacio '\n') = false from by decide]
    · cases b <;> simp [normalizaSaltosAux, List.filter_cons, ih, hc]

/-- Counterexample to C8 as stated: the v4 break-based segmenter rejects
fragments of up to 30 characters, so the non-whitespace characters of the
short fragment "Corto." are absent from the reconstructed output. -/
theorem v4_pierde_fragmentos_cortos :
    segmentarPorSaltosV4
        (("Corto.\nEste fragmento es bastante mas largo que treinta caracteres.").data) =
      [("Este fragmento es bastante mas largo que treinta caracteres.").data] ∧
    ((segmentarPorSaltosV4
        (("Corto.\nEste fragmento es bastante mas largo que treinta caracteres.").data)).flatten).filter
          (fun c => !esEspacio c) ≠
      (("Corto.\nEste fragmento es bastante mas largo que treinta caracteres.").data).filter
        (fun c => !esEspacio c) := by
  exact ⟨by decide, by decide⟩

/-- C8 amended: the break-based segmenter of `src/segmentation.py`, which
rejects only fragments that are empty after stripping, loses no
non-whitespace character and invents none — the non-whitespace characters
of the concatenated output are exactly those of the input, in order; the
v4 variant, which additionally rejects fragments of at most 30 stripped
characters, still invents nothing: its output's non-whitespace characters
form a sublist of the input's. -/
theorem reconstruccion_sin_perdida_caracteres :
    (∀ texto : List Char,
      ((segmentar_por_saltos texto).flatten).filter (fun c => !esEspacio c) =
        texto.filter (fun c => !esEspacio c)) ∧
    (∀ texto : List Char,
      List.Sublist
        (((segmentarPorSaltosV4 texto).flatten).filter (fun c => !esEspacio c))
        (texto.filter (fun c => !esEspacio c))) := by
  constructor
  · intro texto
    rw [segmentar_por_saltos, flatten_filter_no_vacios, filter_noEsp_flatten_map_pyStrip,
      pySplitSaltos, splitSaltosAux_contenido]
    rfl
  · intro texto
    rw [segmentarPorSaltosV4]
    have h1 : List.Sublist
        ((((pySplitSaltos false (normalizaSaltos texto)).map pyStrip).filter
          (fun p => 30 < p.length)).flatten)
        (((pySplitSaltos false (normalizaSaltos texto)).map pyStrip).flatten) :=
      sublist_flatten (List.filter_sublist _)
    have h2 := h1.filter (fun c => !esEspacio c)
    have h3 : (((pySplitSaltos false (normalizaSaltos texto)).map pyStrip).flatten).filter
        (fun c => !esEspacio c) = texto.filter (fun c => !esEspacio c) := by
      rw [filter_noEsp_flatten_map_pyStrip, pySplitSaltos, splitSaltosAux_contenido]
      simp only [List.reverse_nil, List.nil_append]
      rw [normalizaSaltos, filter_noEsp_normalizaAux]
    rw [h3] at h2
    exact h2

end SistemaConocimiento
